import Mathlib

/-!
Verification of the storage / capture pipeline of the bao-chi news crawler.

The Python modules `storage.py`, `archiver.py`, `parser.py` and `scanner.py`
are shallowly embedded below.  SQLite tables are lists of rows; every stateful
operation is a pure function from the database value to a new database value
(plus its return value).  The embedding mirrors the source line by line:
`INSERT OR REPLACE` deletes every row that conflicts on any unique key and
appends the new row, `INSERT OR IGNORE` is a no-op on conflict, `UPDATE`
returns `rowcount > 0`, and `ORDER BY crawled_at DESC` is an insertion sort
by the text comparison SQLite uses on TEXT columns (byte-wise, i.e.
lexicographic on the character lists for the ASCII timestamps involved).
-/

/-! ## storage.py — data model

Status constants (storage.py lines 22-25). -/

def STATUS_NEW : Int := 0
def STATUS_PICKED : Int := 1
def STATUS_ARCHIVED : Int := 2
def STATUS_DISCARDED : Int := -1

/-- A row of the `articles` table (storage.py, `Article` dataclass and the
`articles` schema: `id TEXT PRIMARY KEY`, `url TEXT UNIQUE NOT NULL`). -/
structure ArticleRow where
  id : String
  source : String
  source_name : String
  url : String
  title : String
  sapo : String
  author : String
  content_text : String
  content_html : String
  images : List String
  published_at : String
  crawled_at : String
  status : Int := STATUS_NEW
  link_alive : Bool := true
  category : String := ""
deriving DecidableEq, Repr

/-- A row of the `seen_urls` table (`url TEXT PRIMARY KEY`). -/
structure SeenRow where
  url : String
  article_id : String
  source_name : String
  first_seen_at : String
deriving DecidableEq, Repr

/-- A row of the `images` table (`id TEXT PRIMARY KEY`). -/
structure ImageRow where
  id : String
  article_id : String
  url : String
  local_path : Option String
  downloaded : Bool
  created_at : String
deriving DecidableEq, Repr

/-- The three tables the verified operations touch (`scan_state` and
`error_log` are read or written by no operation modelled here). -/
structure DB where
  articles : List ArticleRow
  seen_urls : List SeenRow
  images : List ImageRow
deriving DecidableEq, Repr

/-- Byte-wise text comparison, as SQLite's default BINARY collation applies it
to the TEXT column `crawled_at` (`crawled_at < ?` in `auto_prune`, and
`ORDER BY crawled_at DESC`).  On the ASCII ISO-8601 timestamps stored there it
is plain lexicographic order. -/
def strLtB : List Char → List Char → Bool
  | [], [] => false
  | [], _ :: _ => true
  | _ :: _, [] => false
  | c :: t, d :: u => if c < d then true else if d < c then false else strLtB t u

def strLt (a b : String) : Bool := strLtB a.data b.data

/-! ## storage.py — triage workflow -/

/-- `UPDATE articles SET status = ? WHERE id = ?`, returning
`cursor.rowcount > 0`.  Shared body of the four status operations. -/
def updateStatus (db : DB) (article_id : String) (st : Int) : DB × Bool :=
  ({ db with
      articles := db.articles.map
        (fun a => if a.id == article_id then { a with status := st } else a) },
   db.articles.any (fun a => a.id == article_id))

/-- `Storage.pick_article` (storage.py 219-227). -/
def pick_article (db : DB) (article_id : String) : DB × Bool :=
  updateStatus db article_id STATUS_PICKED

/-- `Storage.archive_article` (storage.py 229-237). -/
def archive_article (db : DB) (article_id : String) : DB × Bool :=
  updateStatus db article_id STATUS_ARCHIVED

/-- `Storage.discard_article` (storage.py 239-247). -/
def discard_article (db : DB) (article_id : String) : DB × Bool :=
  updateStatus db article_id STATUS_DISCARDED

/-- `Storage.unpick_article` (storage.py 249-257). -/
def unpick_article (db : DB) (article_id : String) : DB × Bool :=
  updateStatus db article_id STATUS_NEW

/-! ## storage.py — deduplication -/

/-- `Storage.is_seen`: `SELECT 1 FROM seen_urls WHERE url = ? LIMIT 1`. -/
def is_seen (db : DB) (url : String) : Bool :=
  db.seen_urls.any (fun s => s.url == url)

/-- `INSERT OR IGNORE INTO seen_urls VALUES (?, ?, ?, ?)`: a no-op when the
primary key `url` already exists, otherwise an append. -/
def insertIgnoreSeen (db : DB) (s : SeenRow) : DB :=
  if db.seen_urls.any (fun r => r.url == s.url) then db
  else { db with seen_urls := db.seen_urls ++ [s] }

/-- `Storage.mark_seen` (storage.py 278-284); `first_seen_at` is the capture
instant, passed in here instead of reading a clock. -/
def mark_seen (db : DB) (url article_id source_name now : String) : DB :=
  insertIgnoreSeen db ⟨url, article_id, source_name, now⟩

/-- `Storage.filter_new_urls` (storage.py 286-295): query the seen set for
the given urls and keep, in order, the urls not found. -/
def filter_new_urls (db : DB) (urls : List String) : List String :=
  if urls = [] then []
  else urls.filter (fun u => !(is_seen db u))

/-! ## storage.py — article CRUD -/

/-- `INSERT OR REPLACE INTO articles`: SQLite first deletes every row that
conflicts with the new row on any uniqueness constraint (`id` primary key or
`url UNIQUE`), then inserts the new row. -/
def insertOrReplaceArticle (db : DB) (a : ArticleRow) : DB :=
  { db with
      articles :=
        db.articles.filter (fun r => !(r.id == a.id || r.url == a.url)) ++ [a] }

/-- `INSERT OR IGNORE INTO articles`: a no-op when the new row conflicts on
`id` or `url`, otherwise an append. -/
def insertIgnoreArticle (db : DB) (a : ArticleRow) : DB :=
  if db.articles.any (fun r => r.id == a.id || r.url == a.url) then db
  else { db with articles := db.articles ++ [a] }

/-- `INSERT OR REPLACE INTO images` (unique key: `id`). -/
def insertOrReplaceImage (db : DB) (i : ImageRow) : DB :=
  { db with images := db.images.filter (fun r => !(r.id == i.id)) ++ [i] }

/-- `INSERT OR IGNORE INTO images`. -/
def insertIgnoreImage (db : DB) (i : ImageRow) : DB :=
  if db.images.any (fun r => r.id == i.id) then db
  else { db with images := db.images ++ [i] }

/-- `Storage.save_article` (storage.py 299-319): `INSERT OR REPLACE` of the
article followed, in the same unit of work, by `INSERT OR IGNORE` of the
`seen_urls` row `(url, id, source_name, crawled_at)`; returns `True`.
(The `except` branch rolls the transaction back and returns `False`; the
model covers the committed path.) -/
def save_article (db : DB) (a : ArticleRow) : DB × Bool :=
  (insertIgnoreSeen (insertOrReplaceArticle db a)
      ⟨a.url, a.id, a.source_name, a.crawled_at⟩,
   true)

/-- `Storage.get_article_by_url`: `SELECT * FROM articles WHERE url = ?`,
`fetchone()` — the first matching row. -/
def get_article_by_url (db : DB) (url : String) : Option ArticleRow :=
  db.articles.find? (fun a => a.url == url)

/-- `Storage.get_article`: `SELECT * FROM articles WHERE id = ?`. -/
def get_article (db : DB) (article_id : String) : Option ArticleRow :=
  db.articles.find? (fun a => a.id == article_id)

/-! ## storage.py — queries with ORDER BY crawled_at DESC -/

/-- Insert into a list kept in descending `crawled_at` order. -/
def insertDesc (a : ArticleRow) : List ArticleRow → List ArticleRow
  | [] => [a]
  | b :: t =>
    if strLt a.crawled_at b.crawled_at then b :: insertDesc a t
    else a :: b :: t

/-- `ORDER BY crawled_at DESC` as an insertion sort. -/
def sortByCrawledDesc : List ArticleRow → List ArticleRow
  | [] => []
  | a :: t => insertDesc a (sortByCrawledDesc t)

/-- `Storage.get_stream` (storage.py 186-195): new articles
(`status = 0`), newest first, `LIMIT limit` (default 100). -/
def get_stream (db : DB) (limit : Nat := 100) : List ArticleRow :=
  (sortByCrawledDesc (db.articles.filter (fun a => a.status == STATUS_NEW))).take limit

/-- `Storage.get_archived` (storage.py 208-217): archived articles
(`status = 2`), newest first, `LIMIT limit` (default 500). -/
def get_archived (db : DB) (limit : Nat := 500) : List ArticleRow :=
  (sortByCrawledDesc (db.articles.filter (fun a => a.status == STATUS_ARCHIVED))).take limit

/-- `Storage.get_all_articles`: everything, newest first. -/
def get_all_articles (db : DB) : List ArticleRow :=
  sortByCrawledDesc db.articles

/-- `Storage.export_json` (storage.py 556-566): the list of article records
written to the JSON file.  With a non-null status filter the source selects
`get_archived()` when the filter equals `STATUS_ARCHIVED` and `get_stream()`
for every other value; with no filter it selects all articles. -/
def export_json (db : DB) (status : Option Int) : List ArticleRow :=
  match status with
  | some s => if s == STATUS_ARCHIVED then get_archived db else get_stream db
  | none => get_all_articles db

/-! ## storage.py — import and pruning -/

/-- The JSON branch of `Storage.import_db` (storage.py 614-662).  Input rows
come from the parsed JSON file; in replace mode (`merge = False`) the
`articles`, `images` and `seen_urls` tables are cleared first.  Each article
is inserted (`OR REPLACE` when merging, `OR IGNORE` otherwise) and its url is
also added to `seen_urls` with `INSERT OR IGNORE`; images follow. -/
def import_json (db : DB) (arts : List ArticleRow) (imgs : List ImageRow)
    (merge : Bool) : DB :=
  let db0 := if merge then db
             else { db with articles := [], images := [], seen_urls := [] }
  let db1 := arts.foldl
    (fun d a =>
      let d' := if merge then insertOrReplaceArticle d a else insertIgnoreArticle d a
      insertIgnoreSeen d' ⟨a.url, a.id, a.source_name, a.crawled_at⟩)
    db0
  imgs.foldl
    (fun d i => if merge then insertOrReplaceImage d i else insertIgnoreImage d i)
    db1

/-- The `.db` merge branch of `Storage.import_db` (storage.py 586-612):
`ATTACH` the backup and run `INSERT OR REPLACE INTO articles SELECT * FROM
import_db.articles` and the same for `images`.  No statement touches
`seen_urls`. -/
def import_db_merge (db other : DB) : DB :=
  let db1 := other.articles.foldl insertOrReplaceArticle db
  other.images.foldl insertOrReplaceImage db1

/-- The row predicate of `auto_prune`'s SELECT:
`status = -1 AND crawled_at < cutoff`. -/
def pruneCond (cutoff : String) (a : ArticleRow) : Bool :=
  a.status == STATUS_DISCARDED && strLt a.crawled_at cutoff

/-- `Storage.auto_prune` (storage.py 675-710).  The source computes
`cutoff = utcnow() - days` and passes it to SQL; the model takes the cutoff
text directly.  It collects the ids of discarded articles older than the
cutoff, returns 0 rows pruned when there are none, and otherwise deletes from
`images`, `articles` and `seen_urls` every row whose (article) id is in the
collected list, returning how many ids were collected.  (The on-disk image
directories it also removes are outside the store.) -/
def auto_prune (db : DB) (cutoff : String) : DB × Nat :=
  let ids := (db.articles.filter (pruneCond cutoff)).map (fun a => a.id)
  if ids.isEmpty then (db, 0)
  else
    ({ articles := db.articles.filter (fun a => !(ids.contains a.id)),
       seen_urls := db.seen_urls.filter (fun s => !(ids.contains s.article_id)),
       images := db.images.filter (fun i => !(ids.contains i.article_id)) },
     ids.length)

/-! ## scanner.py — article-id extraction

`Scanner._extract_article_id` (scanner.py 81-91) tries five regular
expressions in order, then a last-path-segment pattern, then falls back to
`str(abs(hash(url)))`.  Python's built-in `hash` on strings is salted per
process (`PYTHONHASHSEED`), so the fallback value is a function of the run;
the embedding therefore takes the run's string-hash function as the
parameter `h`.  Each regex is embedded directly as a scan over the character
list with Python's leftmost-match, greedy-with-backtracking semantics. -/

/-- Greedy backtracking for `\d{lo,n}` (the digits already scanned lie at the
front of `s`) followed by the literal `suffix`: try the length `n` first and
step down to `lo`; on success return the digit group. -/
def tryLen (s suffix : List Char) (lo : Nat) : Nat → Option (List Char)
  | 0 => if lo == 0 && suffix.isPrefixOf s then some [] else none
  | n + 1 =>
    if lo ≤ n + 1 && suffix.isPrefixOf (s.drop (n + 1)) then some (s.take (n + 1))
    else tryLen s suffix lo n

/-- `\d{lo,hi}` (`hi = none` for `\d+`) then the literal `suffix`, anchored at
the current position. -/
def digitsThen (lo : Nat) (hi : Option Nat) (suffix : List Char) (s : List Char) :
    Option (List Char) :=
  let run := (s.takeWhile Char.isDigit).length
  let start := match hi with
    | some h2 => min h2 run
    | none => run
  tryLen s suffix lo start

/-- `-\d{lo,hi}suffix`, anchored at the current position. -/
def tryDashDigits (lo : Nat) (hi : Option Nat) (suffix : List Char) :
    List Char → Option (List Char)
  | [] => none
  | c :: rest => if c = '-' then digitsThen lo hi suffix rest else none

/-- `/\d{lo,hi}suffix`, anchored at the current position. -/
def trySlashDigits (lo : Nat) (hi : Option Nat) (suffix : List Char) :
    List Char → Option (List Char)
  | [] => none
  | c :: rest => if c = '/' then digitsThen lo hi suffix rest else none

/-- The character class `[a-z0-9-]` of the slug pattern. -/
def isSlugChar (c : Char) : Bool :=
  ('a' ≤ c && c ≤ 'z') || c.isDigit || c == '-'

/-- Whether `-\d+\.htm` matches right after a slug group of length `len`. -/
def slugTailAt (rest : List Char) (len : Nat) : Bool :=
  match rest.drop len with
  | [] => false
  | c :: rest2 => c = '-' && (digitsThen 1 none ['.', 'h', 't', 'm'] rest2).isSome

/-- Greedy backtracking over the slug group length for
`([a-z0-9-]+)-\d+\.htm`. -/
def slugBack (rest : List Char) : Nat → Option (List Char)
  | 0 => none
  | g + 1 =>
    if slugTailAt rest (g + 1) then some (rest.take (g + 1))
    else slugBack rest g

/-- `/([a-z0-9-]+)-\d+\.htm`, anchored at the current position. -/
def trySlug : List Char → Option (List Char)
  | [] => none
  | c :: rest => if c = '/' then slugBack rest (rest.takeWhile isSlugChar).length else none

/-- `re.search`: try the anchored matcher at each position, left to right. -/
def searchP (f : List Char → Option (List Char)) : List Char → Option (List Char)
  | [] => f []
  | c :: t =>
    match f (c :: t) with
    | some g => some g
    | none => searchP f t

/-- The characters after the last `/` of the string (`none` when there is no
`/` at all). -/
def afterLastSlash : List Char → Option (List Char)
  | [] => none
  | c :: t =>
    if c = '/' then
      match afterLastSlash t with
      | some r => some r
      | none => some t
    else afterLastSlash t

/-- Strip one trailing `.html` or `.htm` when a non-empty group remains; the
group of `(?:\.htm|\.html)?$` after the lazy segment group. -/
def stripHtmSuffix (seg : List Char) : List Char :=
  if ['.', 'h', 't', 'm', 'l'].isSuffixOf seg && 5 < seg.length then
    seg.take (seg.length - 5)
  else if ['.', 'h', 't', 'm'].isSuffixOf seg && 4 < seg.length then
    seg.take (seg.length - 4)
  else seg

/-- `re.search(r'/([^/]+?)(?:\.htm|\.html)?$', url)`: a match must run to the
end of the string and the lazy group cannot cross a `/`, so it exists exactly
when the segment after the last `/` is non-empty, and the (shortest-group)
match strips one trailing `.htm`/`.html` from that segment. -/
def lastSegGroup (s : List Char) : Option (List Char) :=
  match afterLastSlash s with
  | none => none
  | some seg => if seg = [] then none else some (stripHtmSuffix seg)

/-- The hash-free part of `Scanner._extract_article_id`: the five
`ARTICLE_ID_PATTERNS` (scanner.py 42-48) in order, then the last-path-segment
pattern truncated to 50 characters. -/
def patternId (url : String) : Option String :=
  let s := url.data
  match searchP (tryDashDigits 15 (some 20) ['.', 'h', 't', 'm']) s with
  | some g => some (String.mk g)
  | none =>
  match searchP (tryDashDigits 6 (some 10) ['.', 'h', 't', 'm']) s with
  | some g => some (String.mk g)
  | none =>
  match searchP (trySlashDigits 6 (some 12) ['.', 'h', 't', 'm']) s with
  | some g => some (String.mk g)
  | none =>
  match searchP (tryDashDigits 1 none ['.', 'h', 't', 'm']) s with
  | some g => some (String.mk g)
  | none =>
  match searchP trySlug s with
  | some g => some (String.mk g)
  | none =>
  match lastSegGroup s with
  | some g => some (String.mk (g.take 50))
  | none => none

/-- `Scanner._extract_article_id` (scanner.py 81-91), parameterised by the
run's string-hash function `h`. -/
def scanner_extract_article_id (h : String → Int) (url : String) : String :=
  match patternId url with
  | some g => g
  | none => toString (h url).natAbs

/-- The article id `AutoArchiver.capture` stores (archiver.py 127):
`link.article_id or str(abs(hash(link.url)))`, where `link.article_id` was
produced by `Scanner._extract_article_id`; an empty string is falsy. -/
def deriveArticleId (h : String → Int) (url : String) : String :=
  let aid := scanner_extract_article_id h url
  if aid = "" then toString (h url).natAbs else aid

/-! ## parser.py — ArticleParser -/

/-- `ArticleParser._extract_id` (parser.py 97-116): two dash-digit patterns
(`-(\d{14,20})\.htm`, then `-(\d{6,10})\.html`), then the last-path-segment
pattern truncated to 50 characters, then `str(abs(hash(url)))`. -/
def parser_extract_id (h : String → Int) (url : String) : String :=
  let s := url.data
  match searchP (tryDashDigits 14 (some 20) ['.', 'h', 't', 'm']) s with
  | some g => String.mk g
  | none =>
  match searchP (tryDashDigits 6 (some 10) ['.', 'h', 't', 'm', 'l']) s with
  | some g => String.mk g
  | none =>
  match lastSegGroup s with
  | some g => String.mk (g.take 50)
  | none => toString (h url).natAbs

/-- `p.isPrefixOf` at some position of `s`: substring containment, for the
`'thanhnien.vn' in url` checks of `_extract_source`. -/
def containsSub (s pat : List Char) : Bool :=
  pat.isPrefixOf s ||
    match s with
    | [] => false
    | _ :: t => containsSub t pat

/-- `re.search(r'://(?:www\.)?([^/]+)', url)`: at the first `://` from which a
match exists, optionally consume `www.` (backtracking to keep it inside the
group when nothing non-`/` follows it), then take the non-empty run of
non-`/` characters. -/
def schemeHost : List Char → Option (List Char)
  | [] => none
  | c :: t =>
    if [':', '/', '/'].isPrefixOf (c :: t) then
      let rest := (c :: t).drop 3
      let withW := if ['w', 'w', 'w', '.'].isPrefixOf rest then
                     ((rest.drop 4).takeWhile (fun d => d ≠ '/'))
                   else []
      let noW := rest.takeWhile (fun d => d ≠ '/')
      if withW ≠ [] then some withW
      else if noW ≠ [] then some noW
      else schemeHost t
    else schemeHost t

/-- `ArticleParser._extract_source` (parser.py 118-130). -/
def parser_extract_source (url : String) : String :=
  let s := url.data
  if containsSub s "thanhnien.vn".data then "thanhnien"
  else if containsSub s "vnexpress.net".data then "vnexpress"
  else if containsSub s "cafef.vn".data then "cafef"
  else if containsSub s "tuoitre.vn".data then "tuoitre"
  else match schemeHost s with
       | some g => String.mk g
       | none => "unknown"

/-- The outputs of the BeautifulSoup-based field extractors
(`_extract_title`, `_extract_sapo`, …) for one fetched body.  The selector
machinery runs over external HTML, so these values enter the model as an
oracle; every extractor defaults to the empty value when its selector finds
nothing.  An exception raised inside `parse` is caught and turned into the
same `None` result as an empty title, so it needs no separate oracle field. -/
structure ExtractedFields where
  title : String
  sapo : String
  author : String
  published_at : String
  content_html : String
  content_text : String
  images : List String
  category : String
deriving DecidableEq, Repr

/-- The `storage.Article` object `ArticleParser.parse` builds on success
(parser.py 74-89).  Note the source stores the *string* `"active"` in the
integer-typed `status` field, so this is not an `ArticleRow`. -/
structure ParsedArticle where
  id : String
  source : String
  source_name : String
  url : String
  title : String
  sapo : String
  author : String
  content_text : String
  content_html : String
  images : List String
  published_at : String
  crawled_at : String
  status_str : String
  category : String
deriving DecidableEq, Repr

/-- `ArticleParser.parse` (parser.py 33-95): extract the fields, and when the
title is empty (`if not title`) return `None` — a hard parse failure — else
build the Article.  `now` is `datetime.utcnow().isoformat()`. -/
def parser_parse (h : String → Int) (now : String) (f : ExtractedFields)
    (url source_name : String) : Option ParsedArticle :=
  if f.title = "" then none
  else some
    { id := parser_extract_id h url
      source := parser_extract_source url
      source_name := source_name
      url := url
      title := f.title
      sapo := f.sapo
      author := f.author
      content_text := f.content_text
      content_html := f.content_html
      images := f.images
      published_at := f.published_at
      crawled_at := now
      status_str := "active"
      category := f.category }

/-! ## archiver.py — AutoArchiver.capture -/

/-- The Python exceptions the capture path can raise. -/
inductive PyExn where
  | attributeError
  | indexError
deriving DecidableEq, Repr

/-- `str.split(sep)` for a one-character separator, Python semantics
(empty pieces kept, `"".split(s) = [""]`). -/
def splitOnChar (c : Char) : List Char → List (List Char)
  | [] => [[]]
  | d :: t =>
    let r := splitOnChar c t
    if d = c then [] :: r
    else
      match r with
      | [] => [[d]]
      | h2 :: t2 => (d :: h2) :: t2

/-- Python list indexing: `IndexError` when out of range. -/
def pyIndex {α : Type} (l : List α) (i : Nat) : Except PyExn α :=
  match l.get? i with
  | some x => Except.ok x
  | none => Except.error PyExn.indexError

/-- `scanner.ArticleLink`: the candidate the scanner hands to capture. -/
structure ArticleLink where
  url : String
  title : String
  article_id : String
  published : Option String := none
deriving DecidableEq, Repr

/-- Outcome of the `session.get(link.url)` fetch: an HTTP status (whose body,
when the status is 200, is summarised by the `ExtractedFields` oracle), a
timeout, or another connection error. -/
inductive FetchOutcome where
  | http (code : Nat)
  | timeout
  | netError
deriving DecidableEq, Repr

/-- `AutoArchiver._stats`. -/
structure ArchStats where
  captured : Nat
  skipped : Nat
  failed : Nat
deriving DecidableEq, Repr

/-- The state capture reads and writes: the storage database plus the
archiver's counters. -/
structure ArchState where
  db : DB
  stats : ArchStats
deriving DecidableEq, Repr

/-- `AutoArchiver.capture` (archiver.py 72-158), for one candidate and one
fetch outcome.

1. `is_seen` check: already-seen urls are skipped (`skipped += 1`, `None`).
2. Fetch: status 429 or 403 (`failed += 1`, `None`); any other non-200
   status, a timeout, or a connection error (`failed += 1`, `None`).
3. On 200 the body is parsed; `ArticleParser.parse` traps its own exceptions
   and returns an `Article` object or `None` (so the `except` arm around the
   call is dead).
4. The `Article(...)` construction evaluates its keyword arguments in order:
   `id=link.article_id or str(abs(hash(link.url)))` (total), then
   `source=link.url.split('/')[2]`, which raises `IndexError` for a url with
   fewer than three `/`-separated pieces, then
   `title=parsed.get('title', ...)`.  `parsed` is `None` or a
   `storage.Article` dataclass instance (the two return paths of
   `ArticleParser.parse`); neither `NoneType` nor the `Article` dataclass
   defines an attribute `get`, so this attribute lookup raises
   `AttributeError` on every input, before the save on line 145 can run.
   The exception propagates out of `capture` (no handler covers this code),
   leaving the database and the counters untouched. -/
def capture (h : String → Int) (now : String) (st : ArchState)
    (source_name : String) (link : ArticleLink) (fetch : FetchOutcome)
    (fields : ExtractedFields) : Except PyExn (Option ArticleRow) × ArchState :=
  if is_seen st.db link.url then
    (Except.ok none, { st with stats := { st.stats with skipped := st.stats.skipped + 1 } })
  else
    match fetch with
    | FetchOutcome.http code =>
      if code == 429 || code == 403 then
        (Except.ok none, { st with stats := { st.stats with failed := st.stats.failed + 1 } })
      else if code != 200 then
        (Except.ok none, { st with stats := { st.stats with failed := st.stats.failed + 1 } })
      else
        match pyIndex (splitOnChar '/' link.url.data) 2 with
        | Except.error e => (Except.error e, st)
        | Except.ok _ =>
          match parser_parse h now fields link.url source_name with
          | none => (Except.error PyExn.attributeError, st)
          | some _ => (Except.error PyExn.attributeError, st)
    | FetchOutcome.timeout =>
      (Except.ok none, { st with stats := { st.stats with failed := st.stats.failed + 1 } })
    | FetchOutcome.netError =>
      (Except.ok none, { st with stats := { st.stats with failed := st.stats.failed + 1 } })

/-! ## Helper lemmas -/

lemma updateStatus_mem {db : DB} {aid : String} {st : Int} {a : ArticleRow}
    (ha : a ∈ db.articles) (hid : a.id = aid) :
    { a with status := st } ∈ (updateStatus db aid st).1.articles := by
  simp only [updateStatus, List.mem_map]
  exact ⟨a, ha, by simp [hid]⟩

lemma updateStatus_rowcount {db : DB} {aid : String} {st : Int} {a : ArticleRow}
    (ha : a ∈ db.articles) (hid : a.id = aid) :
    (updateStatus db aid st).2 = true := by
  simp only [updateStatus, List.any_eq_true]
  exact ⟨a, ha, by simp [hid]⟩

lemma updateStatus_noop (db : DB) (aid : String) (st : Int)
    (hno : db.articles.any (fun r => r.id == aid) = false) :
    updateStatus db aid st = (db, false) := by
  have h1 : ∀ r ∈ db.articles, (r.id == aid) = false := by
    simpa [List.any_eq_false] using hno
  unfold updateStatus
  rw [hno]
  have h2 : db.articles.map
      (fun a => if a.id == aid then { a with status := st } else a) = db.articles := by
    calc db.articles.map (fun a => if a.id == aid then { a with status := st } else a)
        = db.articles.map id := by
          apply List.map_congr_left
          intro a ha
          simp [h1 a ha]
      _ = db.articles := List.map_id _
  rw [h2]

lemma insertIgnoreSeen_articles (db : DB) (s : SeenRow) :
    (insertIgnoreSeen db s).articles = db.articles := by
  unfold insertIgnoreSeen
  by_cases h : db.seen_urls.any (fun r => r.url == s.url) <;> simp [h]

/-! ## C1 — Triage status transitions -/

/-- An article sitting in the store with status DISCARDED. -/
def artDisc : ArticleRow :=
  { id := "a1", source := "x.vn", source_name := "X", url := "http://x.vn/a-1.htm",
    title := "t", sapo := "", author := "", content_text := "", content_html := "",
    images := [], published_at := "", crawled_at := "2024-01-01T00:00:00",
    status := STATUS_DISCARDED, link_alive := true, category := "" }

def dbDisc : DB := ⟨[artDisc], [], []⟩

/-- C1 counterexample: `archive_article` on an article whose status is
DISCARDED is not rejected — the UPDATE has no status guard, so the row moves
to ARCHIVED and the call reports one row affected. -/
theorem c1_archive_discarded_not_rejected :
    (archive_article dbDisc "a1").2 = true
    ∧ (archive_article dbDisc "a1").1.articles
        = [{ artDisc with status := STATUS_ARCHIVED }] := by
  constructor <;> rfl

/-- C1 (amended): the four status operations are unguarded UPDATEs — each
sets its target status on the row matching the id regardless of the row's
current status (so DISCARDED→ARCHIVED, ARCHIVED→DISCARDED, ARCHIVED→PICKED,
… all happen), returning whether a row matched; on an id that matches no
row, every operation is a no-op that reports zero rows affected (returns
`false`) rather than an error. -/
theorem c1_status_ops_unguarded (db : DB) (aid : String) (a : ArticleRow)
    (ha : a ∈ db.articles) (hid : a.id = aid) :
    ({ a with status := STATUS_ARCHIVED } ∈ (archive_article db aid).1.articles
      ∧ (archive_article db aid).2 = true)
    ∧ ({ a with status := STATUS_DISCARDED } ∈ (discard_article db aid).1.articles
      ∧ (discard_article db aid).2 = true)
    ∧ ({ a with status := STATUS_PICKED } ∈ (pick_article db aid).1.articles
      ∧ (pick_article db aid).2 = true)
    ∧ ({ a with status := STATUS_NEW } ∈ (unpick_article db aid).1.articles
      ∧ (unpick_article db aid).2 = true)
    ∧ (∀ aid2, db.articles.any (fun r => r.id == aid2) = false →
        archive_article db aid2 = (db, false)
        ∧ discard_article db aid2 = (db, false)
        ∧ pick_article db aid2 = (db, false)
        ∧ unpick_article db aid2 = (db, false)) := by
  refine ⟨⟨updateStatus_mem ha hid, updateStatus_rowcount ha hid⟩,
          ⟨updateStatus_mem ha hid, updateStatus_rowcount ha hid⟩,
          ⟨updateStatus_mem ha hid, updateStatus_rowcount ha hid⟩,
          ⟨updateStatus_mem ha hid, updateStatus_rowcount ha hid⟩,
          ?_⟩
  intro aid2 hno
  exact ⟨updateStatus_noop db aid2 _ hno, updateStatus_noop db aid2 _ hno,
         updateStatus_noop db aid2 _ hno, updateStatus_noop db aid2 _ hno⟩

theorem c1_status_ops_unguarded_witness :
    ({ artDisc with status := STATUS_ARCHIVED } ∈ (archive_article dbDisc "a1").1.articles
      ∧ (archive_article dbDisc "a1").2 = true)
    ∧ pick_article dbDisc "zz" = (dbDisc, false) :=
  ⟨(c1_status_ops_unguarded dbDisc "a1" artDisc (by decide) rfl).1,
   ((c1_status_ops_unguarded dbDisc "a1" artDisc (by decide) rfl).2.2.2.2 "zz"
      (by decide)).2.2.1⟩

/-! ## C7 — filter_new_urls -/

/-- C7: `filter_new_urls` returns exactly the sub-list of its input whose
urls have no `seen_urls` record (same elements, same order, duplicates kept),
and it is stable — any state whose `seen_urls` table is unchanged (no
intervening insert) gives the same answer. -/
theorem c7_filter_new_urls_exact_and_stable (db db2 : DB) (urls : List String)
    (hs : db2.seen_urls = db.seen_urls) :
    filter_new_urls db urls = urls.filter (fun u => !(is_seen db u))
    ∧ List.Sublist (filter_new_urls db urls) urls
    ∧ filter_new_urls db2 urls = filter_new_urls db urls := by
  have h1 : filter_new_urls db urls = urls.filter (fun u => !(is_seen db u)) := by
    unfold filter_new_urls
    by_cases h : urls = [] <;> simp [h]
  refine ⟨h1, ?_, ?_⟩
  · rw [h1]; exact List.filter_sublist _
  · unfold filter_new_urls is_seen
    rw [hs]

def dbSeen1 : DB := ⟨[], [⟨"http://x.vn/a-1.htm", "a1", "X", "2024"⟩], []⟩

theorem c7_filter_new_urls_witness :
    filter_new_urls dbSeen1 ["http://x.vn/a-1.htm", "http://x.vn/b-2.htm"]
      = ["http://x.vn/a-1.htm", "http://x.vn/b-2.htm"].filter
          (fun u => !(is_seen dbSeen1 u))
    ∧ List.Sublist
        (filter_new_urls dbSeen1 ["http://x.vn/a-1.htm", "http://x.vn/b-2.htm"])
        ["http://x.vn/a-1.htm", "http://x.vn/b-2.htm"]
    ∧ filter_new_urls ⟨[artDisc], dbSeen1.seen_urls, []⟩
        ["http://x.vn/a-1.htm", "http://x.vn/b-2.htm"]
      = filter_new_urls dbSeen1 ["http://x.vn/a-1.htm", "http://x.vn/b-2.htm"] :=
  c7_filter_new_urls_exact_and_stable dbSeen1 ⟨[artDisc], dbSeen1.seen_urls, []⟩
    ["http://x.vn/a-1.htm", "http://x.vn/b-2.htm"] rfl

/-! ## C10 — save_article over a url conflict -/

/-- C10: `save_article` uses `INSERT OR REPLACE` over both unique keys, so
saving an article with a fresh id but an existing url silently deletes the
previously stored row — its status and link-alive value are gone, the url now
resolves to the new article's row — and the call still returns `true`. -/
theorem c10_save_article_url_conflict_replaces (db : DB) (old b : ArticleRow)
    (_hold : old ∈ db.articles) (hurl : old.url = b.url) (hid : old.id ≠ b.id) :
    (save_article db b).2 = true
    ∧ old ∉ (save_article db b).1.articles
    ∧ get_article_by_url (save_article db b).1 b.url = some b := by
  refine ⟨rfl, ?_, ?_⟩
  · intro hmem
    rw [show (save_article db b).1 = insertIgnoreSeen (insertOrReplaceArticle db b)
          ⟨b.url, b.id, b.source_name, b.crawled_at⟩ from rfl,
        insertIgnoreSeen_articles] at hmem
    simp only [insertOrReplaceArticle, List.mem_append, List.mem_filter,
      List.mem_singleton] at hmem
    rcases hmem with ⟨_, hkeep⟩ | heq
    · simp [hurl] at hkeep
    · exact hid (congrArg ArticleRow.id heq)
  · unfold get_article_by_url
    rw [show (save_article db b).1 = insertIgnoreSeen (insertOrReplaceArticle db b)
          ⟨b.url, b.id, b.source_name, b.crawled_at⟩ from rfl,
        insertIgnoreSeen_articles]
    simp only [insertOrReplaceArticle]
    rw [List.find?_append]
    have hnone : (db.articles.filter
        (fun r => !(r.id == b.id || r.url == b.url))).find?
          (fun a => a.url == b.url) = none := by
      rw [List.find?_eq_none]
      intro x hx
      rcases List.mem_filter.mp hx with ⟨_, hkeep⟩
      simp only [Bool.not_eq_eq_eq_not, Bool.not_true, Bool.or_eq_false_iff] at hkeep
      simp [hkeep.2]
    rw [hnone]
    simp

def artOld : ArticleRow :=
  { id := "a1", source := "x.vn", source_name := "X", url := "http://x.vn/a-1.htm",
    title := "t", sapo := "", author := "", content_text := "", content_html := "",
    images := [], published_at := "", crawled_at := "2024-01-01T00:00:00",
    status := STATUS_ARCHIVED, link_alive := false, category := "" }

def artNewSameUrl : ArticleRow :=
  { id := "b2", source := "x.vn", source_name := "X", url := "http://x.vn/a-1.htm",
    title := "t2", sapo := "", author := "", content_text := "", content_html := "",
    images := [], published_at := "", crawled_at := "2024-02-02T00:00:00",
    status := STATUS_NEW, link_alive := true, category := "" }

theorem c10_save_article_url_conflict_witness :
    (save_article ⟨[artOld], [], []⟩ artNewSameUrl).2 = true
    ∧ artOld ∉ (save_article ⟨[artOld], [], []⟩ artNewSameUrl).1.articles
    ∧ get_article_by_url (save_article ⟨[artOld], [], []⟩ artNewSameUrl).1
        artNewSameUrl.url = some artNewSameUrl :=
  c10_save_article_url_conflict_replaces ⟨[artOld], [], []⟩ artOld artNewSameUrl
    (by decide) rfl (by decide)

/-! ## C3 — Article ⇒ SeenURL invariant -/

/-- The invariant: an Article row exists for a url only if a `seen_urls` row
with that url exists. -/
def InvSeen (db : DB) : Prop :=
  ∀ a ∈ db.articles, db.seen_urls.any (fun s => s.url == a.url) = true

/-- Executable form of `InvSeen`. -/
def invSeenB (db : DB) : Bool :=
  db.articles.all (fun a => db.seen_urls.any (fun s => s.url == a.url))

lemma invSeenB_eq_true_iff (db : DB) : invSeenB db = true ↔ InvSeen db := by
  unfold invSeenB InvSeen
  rw [List.all_eq_true]

lemma any_seen_insertIgnoreSeen (db : DB) (s : SeenRow) (p : SeenRow → Bool)
    (h : db.seen_urls.any p = true) :
    (insertIgnoreSeen db s).seen_urls.any p = true := by
  unfold insertIgnoreSeen
  by_cases hc : db.seen_urls.any (fun r => r.url == s.url) <;>
    simp [hc, List.any_append, h]

lemma self_seen_insertIgnoreSeen (db : DB) (s : SeenRow) :
    (insertIgnoreSeen db s).seen_urls.any (fun r => r.url == s.url) = true := by
  unfold insertIgnoreSeen
  by_cases hc : db.seen_urls.any (fun r => r.url == s.url) <;>
    simp [hc, List.any_append]

/-- Inserting the article's own `seen_urls` row re-establishes the invariant
after any change of the articles table that at most adds the article `a`. -/
lemma invSeen_step (d d2 : DB) (a : ArticleRow)
    (hseen : d2.seen_urls = d.seen_urls)
    (hsub : ∀ x ∈ d2.articles, x ∈ d.articles ∨ x = a)
    (hinv : InvSeen d) :
    InvSeen (insertIgnoreSeen d2 ⟨a.url, a.id, a.source_name, a.crawled_at⟩) := by
  intro x hx
  rw [insertIgnoreSeen_articles] at hx
  rcases hsub x hx with hxd | rfl
  · exact any_seen_insertIgnoreSeen _ _ _ (by rw [hseen]; exact hinv x hxd)
  · exact self_seen_insertIgnoreSeen d2 _

lemma invSeen_save_article (db : DB) (a : ArticleRow) (hinv : InvSeen db) :
    InvSeen (save_article db a).1 := by
  apply invSeen_step db (insertOrReplaceArticle db a) a rfl _ hinv
  intro x hx
  simp only [insertOrReplaceArticle, List.mem_append, List.mem_filter,
    List.mem_singleton] at hx
  rcases hx with ⟨hxd, _⟩ | hxa
  · exact Or.inl hxd
  · exact Or.inr hxa

lemma invSeen_import_article_step (d : DB) (a : ArticleRow) (merge : Bool)
    (hinv : InvSeen d) :
    InvSeen (insertIgnoreSeen
        (if merge then insertOrReplaceArticle d a else insertIgnoreArticle d a)
        ⟨a.url, a.id, a.source_name, a.crawled_at⟩) := by
  cases merge
  · simp only [Bool.false_eq_true, if_false]
    apply invSeen_step d (insertIgnoreArticle d a) a _ _ hinv
    · unfold insertIgnoreArticle
      by_cases hc : d.articles.any (fun r => r.id == a.id || r.url == a.url) <;>
        simp [hc]
    · intro x hx
      unfold insertIgnoreArticle at hx
      by_cases hc : d.articles.any (fun r => r.id == a.id || r.url == a.url) <;>
        simp [hc] at hx
      · exact Or.inl hx
      · rcases hx with hx | hx
        · exact Or.inl hx
        · exact Or.inr hx
  · simp only [if_true]
    apply invSeen_step d (insertOrReplaceArticle d a) a rfl _ hinv
    intro x hx
    simp only [insertOrReplaceArticle, List.mem_append, List.mem_filter,
      List.mem_singleton] at hx
    rcases hx with ⟨hxd, _⟩ | hxa
    · exact Or.inl hxd
    · exact Or.inr hxa

lemma insertIgnoreImage_articles (d : DB) (i : ImageRow) :
    (insertIgnoreImage d i).articles = d.articles := by
  unfold insertIgnoreImage
  by_cases hc : d.images.any (fun r => r.id == i.id) <;> simp [hc]

lemma insertIgnoreImage_seen (d : DB) (i : ImageRow) :
    (insertIgnoreImage d i).seen_urls = d.seen_urls := by
  unfold insertIgnoreImage
  by_cases hc : d.images.any (fun r => r.id == i.id) <;> simp [hc]

lemma invSeen_image_step (d : DB) (i : ImageRow) (merge : Bool) (hinv : InvSeen d) :
    InvSeen (if merge then insertOrReplaceImage d i else insertIgnoreImage d i) := by
  intro x hx
  cases merge
  · simp only [Bool.false_eq_true, if_false] at hx ⊢
    rw [insertIgnoreImage_articles] at hx
    rw [insertIgnoreImage_seen]
    exact hinv x hx
  · simp only [if_true] at hx ⊢
    exact hinv x hx

lemma foldl_preserves {β : Type} (f : DB → β → DB) (P : DB → Prop)
    (hf : ∀ d x, P d → P (f d x)) :
    ∀ (l : List β) (d : DB), P d → P (List.foldl f d l)
  | [], _, hd => hd
  | x :: t, d, hd => foldl_preserves f P hf t (f d x) (hf d x hd)

lemma invSeen_import_json (db : DB) (arts : List ArticleRow)
    (imgs : List ImageRow) (merge : Bool) (hinv : InvSeen db) :
    InvSeen (import_json db arts imgs merge) := by
  unfold import_json
  apply foldl_preserves _ InvSeen (fun d i hd => invSeen_image_step d i merge hd)
  apply foldl_preserves _ InvSeen (fun d a hd => invSeen_import_article_step d a merge hd)
  cases merge
  · intro x hx
    simp at hx
  · simpa using hinv

/-- C3 (amended): the invariant "an Article exists for a url only if a
SeenURL record exists for it" is preserved by `save_article` and by both
modes of the JSON import path; the `.db`-merge path of `import_db` does not
establish it (see the counterexample), because it copies `articles` and
`images` from the attached backup but never touches `seen_urls`. -/
theorem c3_seen_invariant_save_and_json_import (db : DB) (a : ArticleRow)
    (arts : List ArticleRow) (imgs : List ImageRow) (merge : Bool)
    (hinv : InvSeen db) :
    InvSeen (save_article db a).1 ∧ InvSeen (import_json db arts imgs merge) :=
  ⟨invSeen_save_article db a hinv, invSeen_import_json db arts imgs merge hinv⟩

/-- C3 counterexample: merging a `.db` backup that holds an article whose url
is in nobody's `seen_urls` leaves the store with an Article row and no
matching SeenURL row — the invariant fails right after a completed mutating
operation of the store. -/
theorem c3_db_merge_breaks_seen_invariant :
    (import_db_merge ⟨[], [], []⟩ ⟨[artOld], [], []⟩).articles = [artOld]
    ∧ (import_db_merge ⟨[], [], []⟩ ⟨[artOld], [], []⟩).seen_urls = []
    ∧ invSeenB (import_db_merge ⟨[], [], []⟩ ⟨[artOld], [], []⟩) = false :=
  ⟨rfl, rfl, rfl⟩

theorem c3_seen_invariant_witness :
    InvSeen (save_article ⟨[], [], []⟩ artOld).1
    ∧ InvSeen (import_json ⟨[], [], []⟩ [artNewSameUrl] [] true) :=
  c3_seen_invariant_save_and_json_import ⟨[], [], []⟩ artOld [artNewSameUrl] [] true
    (by intro a ha; simp at ha)

/-! ## C8 — auto_prune -/

/-- Schema invariant: `id` is the primary key of `articles`. -/
def UniqueIds (db : DB) : Prop :=
  (db.articles.map (fun a => a.id)).Nodup

lemma mapfilter_contains (l : List ArticleRow) (p : ArticleRow → Bool) (y : String) :
    ((l.filter p).map (fun a => a.id)).contains y
      = l.any (fun a => p a && a.id == y) := by
  induction l with
  | nil => rfl
  | cons b t ih =>
    by_cases hb : p b = true
    · rw [List.filter_cons_of_pos hb, List.map_cons, List.contains_cons,
        List.any_cons, ih, hb]
      have hcomm : (y == b.id) = (b.id == y) := by
        by_cases h : b.id = y
        · subst h; rfl
        · rw [beq_eq_false_iff_ne.mpr (fun e => h e.symm), beq_eq_false_iff_ne.mpr h]
      rw [hcomm]
      simp only [Bool.true_and]
    · have hb2 : p b = false := by simpa using hb
      rw [List.filter_cons_of_neg hb, List.any_cons, ih, hb2]
      simp only [Bool.false_and, Bool.false_or]


lemma prunedIds_contains_iff (db : DB) (cutoff : String)
    (hU : UniqueIds db) (a : ArticleRow) (ha : a ∈ db.articles) :
    ((db.articles.filter (pruneCond cutoff)).map (fun x => x.id)).contains a.id
      = pruneCond cutoff a := by
  rw [mapfilter_contains]
  cases hp : pruneCond cutoff a
  · rw [List.any_eq_false]
    intro b hb hcontra
    rw [Bool.and_eq_true, beq_iff_eq] at hcontra
    have hba : b = a := List.inj_on_of_nodup_map hU hb ha hcontra.2
    rw [hba, hp] at hcontra
    exact Bool.false_ne_true hcontra.1
  · rw [List.any_eq_true]
    exact ⟨a, ha, by simp [hp]⟩

/-- C8: `auto_prune` removes exactly the articles whose status is DISCARDED
and whose capture timestamp is older (by SQLite text comparison) than the
cutoff, together with exactly the ImageRecords owned by those articles;
every other article and every other image row is left unchanged, and the
returned count is the number of pruned articles.  (The operation also drops
the pruned articles' `seen_urls` rows, which the claim does not mention.) -/
theorem c8_auto_prune_exact (db : DB) (cutoff : String) (hU : UniqueIds db) :
    (auto_prune db cutoff).1.articles
      = db.articles.filter (fun a => !(pruneCond cutoff a))
    ∧ (auto_prune db cutoff).1.images
      = db.images.filter (fun i =>
          !(db.articles.any (fun a => pruneCond cutoff a && a.id == i.article_id)))
    ∧ (auto_prune db cutoff).2
      = (db.articles.filter (pruneCond cutoff)).length := by
  unfold auto_prune
  by_cases hempty :
      ((db.articles.filter (pruneCond cutoff)).map (fun a => a.id)).isEmpty = true
  · have hids : (db.articles.filter (pruneCond cutoff)).map (fun a => a.id) = [] :=
      List.isEmpty_iff.mp hempty
    have hfil : db.articles.filter (pruneCond cutoff) = [] :=
      List.map_eq_nil_iff.mp hids
    have hall : ∀ a ∈ db.articles, pruneCond cutoff a = false := by
      intro a ha
      have := List.filter_eq_nil_iff.mp hfil a ha
      simpa using this
    simp only [hempty, if_true]
    refine ⟨?_, ?_, ?_⟩
    · symm
      rw [List.filter_eq_self]
      intro a ha
      simp [hall a ha]
    · symm
      rw [List.filter_eq_self]
      intro i _
      have : db.articles.any
          (fun a => pruneCond cutoff a && a.id == i.article_id) = false := by
        rw [List.any_eq_false]
        intro a ha
        simp [hall a ha]
      simp [this]
    · simp [hfil]
  · rw [if_neg hempty]
    refine ⟨?_, ?_, by rw [List.length_map]⟩
    · apply List.filter_congr
      intro a ha
      rw [prunedIds_contains_iff db cutoff hU a ha]
    · apply List.filter_congr
      intro i _
      rw [mapfilter_contains]

def imgOfA1 : ImageRow := ⟨"i1", "a1", "http://x.vn/img/1.jpg", none, false, "2024-01-01"⟩

def dbPrune : DB := ⟨[artDisc, artNewSameUrl], [], [imgOfA1]⟩

theorem c8_auto_prune_witness :
    (auto_prune dbPrune "2024-06-01T00:00:00").1.articles
      = dbPrune.articles.filter (fun a => !(pruneCond "2024-06-01T00:00:00" a))
    ∧ (auto_prune dbPrune "2024-06-01T00:00:00").1.images
      = dbPrune.images.filter (fun i =>
          !(dbPrune.articles.any
              (fun a => pruneCond "2024-06-01T00:00:00" a && a.id == i.article_id)))
    ∧ (auto_prune dbPrune "2024-06-01T00:00:00").2
      = (dbPrune.articles.filter (pruneCond "2024-06-01T00:00:00")).length :=
  c8_auto_prune_exact dbPrune "2024-06-01T00:00:00" (by unfold UniqueIds; decide)

/-! ## C9 — export_json -/

lemma insertDesc_perm (a : ArticleRow) (l : List ArticleRow) :
    List.Perm (insertDesc a l) (a :: l) := by
  induction l with
  | nil => exact List.Perm.refl _
  | cons b t ih =>
    unfold insertDesc
    by_cases hc : strLt a.crawled_at b.crawled_at
    · rw [if_pos hc]
      exact (List.Perm.cons b ih).trans (List.Perm.swap a b t)
    · rw [if_neg hc]

lemma sortByCrawledDesc_perm (l : List ArticleRow) :
    List.Perm (sortByCrawledDesc l) l := by
  induction l with
  | nil => exact List.Perm.refl _
  | cons a t ih =>
    exact (insertDesc_perm a _).trans (List.Perm.cons a ih)

/-- C9 (amended): `export_json` with the ARCHIVED filter produces exactly the
stored articles with status ARCHIVED (when at most 500 exist — the query has
`LIMIT 500`); with *any other* non-null status filter, PICKED and DISCARDED
included, it produces the articles with status NEW (when at most 100 exist —
`LIMIT 100`), not the articles with the requested status; with no filter it
produces all stored articles. -/
theorem c9_export_json_characterization (db : DB) (s : Int)
    (hs : s ≠ STATUS_ARCHIVED)
    (h2 : (db.articles.filter (fun a => a.status == STATUS_ARCHIVED)).length ≤ 500)
    (h0 : (db.articles.filter (fun a => a.status == STATUS_NEW)).length ≤ 100) :
    List.Perm (export_json db (some STATUS_ARCHIVED))
      (db.articles.filter (fun a => a.status == STATUS_ARCHIVED))
    ∧ List.Perm (export_json db (some s))
      (db.articles.filter (fun a => a.status == STATUS_NEW))
    ∧ List.Perm (export_json db none) db.articles := by
  have hbeq : (s == STATUS_ARCHIVED) = false := beq_eq_false_iff_ne.mpr hs
  refine ⟨?_, ?_, ?_⟩
  · show List.Perm (if (STATUS_ARCHIVED == STATUS_ARCHIVED) = true
        then get_archived db else get_stream db) _
    rw [if_pos (beq_self_eq_true STATUS_ARCHIVED)]
    unfold get_archived
    rw [List.take_of_length_le
      (by rw [(sortByCrawledDesc_perm _).length_eq]; exact h2)]
    exact sortByCrawledDesc_perm _
  · show List.Perm (if (s == STATUS_ARCHIVED) = true
        then get_archived db else get_stream db) _
    rw [hbeq, if_neg Bool.false_ne_true]
    unfold get_stream
    rw [List.take_of_length_le
      (by rw [(sortByCrawledDesc_perm _).length_eq]; exact h0)]
    exact sortByCrawledDesc_perm _
  · exact sortByCrawledDesc_perm _

def artPicked : ArticleRow :=
  { id := "p1", source := "x.vn", source_name := "X", url := "http://x.vn/p-1.htm",
    title := "t", sapo := "", author := "", content_text := "", content_html := "",
    images := [], published_at := "", crawled_at := "2024-03-03T00:00:00",
    status := STATUS_PICKED, link_alive := true, category := "" }

/-- C9 counterexample: with a store holding exactly one PICKED article,
export with status filter PICKED produces the empty list (the code runs
`get_stream()`, which selects status NEW), not the set of articles whose
status equals the filter. -/
theorem c9_picked_filter_exports_new :
    export_json ⟨[artPicked], [], []⟩ (some STATUS_PICKED) = []
    ∧ (DB.mk [artPicked] [] []).articles.filter
        (fun a => a.status == STATUS_PICKED) = [artPicked] :=
  ⟨rfl, rfl⟩

def dbExport : DB := ⟨[artOld, artNewSameUrl], [], []⟩

theorem c9_export_json_witness :
    List.Perm (export_json dbExport (some STATUS_ARCHIVED))
      (dbExport.articles.filter (fun a => a.status == STATUS_ARCHIVED))
    ∧ List.Perm (export_json dbExport (some STATUS_PICKED))
      (dbExport.articles.filter (fun a => a.status == STATUS_NEW))
    ∧ List.Perm (export_json dbExport none) dbExport.articles :=
  c9_export_json_characterization dbExport STATUS_PICKED (by decide) (by decide)
    (by decide)

/-! ## C4 / C5 / C6 — capture -/

/-- `capture` reads the state only through `st.db`, and no branch writes the
database: equal databases give equal results and equal result databases. -/
lemma capture_db_congr (h : String → Int) (now : String) (s1 s2 : ArchState)
    (src : String) (link : ArticleLink) (fetch : FetchOutcome)
    (fields : ExtractedFields) (hdb : s1.db = s2.db) :
    (capture h now s1 src link fetch fields).1
      = (capture h now s2 src link fetch fields).1
    ∧ (capture h now s1 src link fetch fields).2.db
      = (capture h now s2 src link fetch fields).2.db := by
  unfold capture
  rw [hdb]
  by_cases hseen : is_seen s2.db link.url = true
  · rw [if_pos hseen, if_pos hseen]
    exact ⟨rfl, rfl⟩
  · rw [if_neg hseen, if_neg hseen]
    cases fetch with
    | http code =>
      dsimp only
      by_cases hc : (code == 429 || code == 403) = true
      · rw [if_pos hc, if_pos hc]
        exact ⟨rfl, rfl⟩
      · rw [if_neg hc, if_neg hc]
        by_cases h200 : (code != 200) = true
        · rw [if_pos h200, if_pos h200]
          exact ⟨rfl, rfl⟩
        · rw [if_neg h200, if_neg h200]
          cases hpy : pyIndex (splitOnChar '/' link.url.data) 2 with
          | error e => exact ⟨rfl, hdb⟩
          | ok x =>
            dsimp only
            cases hpp : parser_parse h now fields link.url src with
            | none => exact ⟨rfl, hdb⟩
            | some p => exact ⟨rfl, hdb⟩
    | timeout => exact ⟨rfl, rfl⟩
    | netError => exact ⟨rfl, rfl⟩

/-- C5: a fetch answered 429 (or 403) makes `capture` return `None`,
increment the failure counter and only it, and write nothing: no `seen_urls`
row and no Article row appears (the database is untouched, so the url is
still not seen).  Consequently a later `capture` of the same URL is not
skipped as already seen — it returns the same result and produces the same
database as a first capture of that URL would with the same fetch outcome:
the rate-limit response left no trace that could block it. -/
theorem c5_rate_limit_leaves_no_trace (h : String → Int) (now : String)
    (st : ArchState) (src : String) (link : ArticleLink) (code : Nat)
    (fields fields2 : ExtractedFields) (fetch2 : FetchOutcome)
    (hcode : code = 429 ∨ code = 403)
    (hseen : is_seen st.db link.url = false) :
    (capture h now st src link (FetchOutcome.http code) fields).1 = Except.ok none
    ∧ (capture h now st src link (FetchOutcome.http code) fields).2.db = st.db
    ∧ (capture h now st src link (FetchOutcome.http code) fields).2.stats.failed
        = st.stats.failed + 1
    ∧ (capture h now st src link (FetchOutcome.http code) fields).2.stats.captured
        = st.stats.captured
    ∧ (capture h now st src link (FetchOutcome.http code) fields).2.stats.skipped
        = st.stats.skipped
    ∧ is_seen (capture h now st src link (FetchOutcome.http code) fields).2.db
        link.url = false
    ∧ (capture h now (capture h now st src link (FetchOutcome.http code) fields).2
          src link fetch2 fields2).1
        = (capture h now st src link fetch2 fields2).1
    ∧ (capture h now (capture h now st src link (FetchOutcome.http code) fields).2
          src link fetch2 fields2).2.db
        = (capture h now st src link fetch2 fields2).2.db := by
  have hc : (code == 429 || code == 403) = true := by
    rcases hcode with rfl | rfl <;> rfl
  have hkey : capture h now st src link (FetchOutcome.http code) fields
      = (Except.ok none,
         { st with stats := { st.stats with failed := st.stats.failed + 1 } }) := by
    unfold capture
    rw [hseen, if_neg Bool.false_ne_true]
    dsimp only
    rw [if_pos hc]
  rw [hkey]
  have hcongr := capture_db_congr h now
    { st with stats := { st.stats with failed := st.stats.failed + 1 } } st
    src link fetch2 fields2 rfl
  exact ⟨rfl, rfl, rfl, rfl, rfl, hseen, hcongr.1, hcongr.2⟩

def stEmpty : ArchState := ⟨⟨[], [], []⟩, ⟨0, 0, 0⟩⟩

def linkX : ArticleLink :=
  ⟨"http://x.vn/bai-viet-12345678.htm", "Tin", "12345678", none⟩

def fieldsOk : ExtractedFields := ⟨"Tin nong", "sapo", "A", "", "<p>x</p>", "x", [], ""⟩

theorem c5_rate_limit_witness :
    (capture (fun _ => 0) "2024-01-01T00:00:00" stEmpty "X" linkX
        (FetchOutcome.http 429) fieldsOk).1 = Except.ok none
    ∧ (capture (fun _ => 0) "2024-01-01T00:00:00" stEmpty "X" linkX
        (FetchOutcome.http 429) fieldsOk).2.db = stEmpty.db
    ∧ (capture (fun _ => 0) "2024-01-01T00:00:00" stEmpty "X" linkX
        (FetchOutcome.http 429) fieldsOk).2.stats.failed = stEmpty.stats.failed + 1
    ∧ (capture (fun _ => 0) "2024-01-01T00:00:00" stEmpty "X" linkX
        (FetchOutcome.http 429) fieldsOk).2.stats.captured = stEmpty.stats.captured
    ∧ (capture (fun _ => 0) "2024-01-01T00:00:00" stEmpty "X" linkX
        (FetchOutcome.http 429) fieldsOk).2.stats.skipped = stEmpty.stats.skipped
    ∧ is_seen (capture (fun _ => 0) "2024-01-01T00:00:00" stEmpty "X" linkX
        (FetchOutcome.http 429) fieldsOk).2.db linkX.url = false
    ∧ (capture (fun _ => 0) "2024-01-01T00:00:00"
          (capture (fun _ => 0) "2024-01-01T00:00:00" stEmpty "X" linkX
            (FetchOutcome.http 429) fieldsOk).2
          "X" linkX (FetchOutcome.http 200) fieldsOk).1
        = (capture (fun _ => 0) "2024-01-01T00:00:00" stEmpty "X" linkX
            (FetchOutcome.http 200) fieldsOk).1
    ∧ (capture (fun _ => 0) "2024-01-01T00:00:00"
          (capture (fun _ => 0) "2024-01-01T00:00:00" stEmpty "X" linkX
            (FetchOutcome.http 429) fieldsOk).2
          "X" linkX (FetchOutcome.http 200) fieldsOk).2.db
        = (capture (fun _ => 0) "2024-01-01T00:00:00" stEmpty "X" linkX
            (FetchOutcome.http 200) fieldsOk).2.db :=
  c5_rate_limit_leaves_no_trace (fun _ => 0) "2024-01-01T00:00:00" stEmpty "X"
    linkX 429 fieldsOk fieldsOk (FetchOutcome.http 200) (Or.inl rfl) rfl

def fieldsNoTitle : ExtractedFields := ⟨"", "", "", "", "", "", [], ""⟩

/-- C4: when field extraction yields an empty/missing title,
`ArticleParser.parse` does return `None` (the hard parse failure the claim
describes) and no Article is persisted — but `capture` then evaluates
`parsed.get('title', ...)` on that `None` and raises `AttributeError`
instead of returning `None` as its docstring promises. -/
theorem c4_empty_title_capture_raises :
    parser_parse (fun _ => 0) "2024-01-01T00:00:00" fieldsNoTitle linkX.url "X"
      = none
    ∧ capture (fun _ => 0) "2024-01-01T00:00:00" stEmpty "X" linkX
        (FetchOutcome.http 200) fieldsNoTitle
      = (Except.error PyExn.attributeError, stEmpty)
    ∧ stEmpty.db.articles = [] :=
  ⟨rfl, rfl, rfl⟩

/-- C6: `capture` can never return an Article — on every state, candidate,
fetch outcome and extraction result it returns `None` or raises (the
`parsed.get` attribute lookup fails on both return shapes of
`ArticleParser.parse`), so the success half of the idempotence claim is
unrealisable in the code as written. -/
theorem c6_capture_never_returns_article (h : String → Int) (now : String)
    (st : ArchState) (src : String) (link : ArticleLink) (fetch : FetchOutcome)
    (fields : ExtractedFields) :
    ((capture h now st src link fetch fields).1.toOption.getD none) = none := by
  unfold capture
  by_cases hseen : is_seen st.db link.url = true
  · rw [if_pos hseen]; rfl
  · rw [if_neg hseen]
    cases fetch with
    | http code =>
      dsimp only
      by_cases hc : (code == 429 || code == 403) = true
      · rw [if_pos hc]; rfl
      · rw [if_neg hc]
        by_cases h200 : (code != 200) = true
        · rw [if_pos h200]; rfl
        · rw [if_neg h200]
          cases hpy : pyIndex (splitOnChar '/' link.url.data) 2 with
          | error e => rfl
          | ok x =>
            dsimp only
            cases hpp : parser_parse h now fields link.url src with
            | none => rfl
            | some p => rfl
    | timeout => rfl
    | netError => rfl

/-! ## C2 — article-id derivation across runs -/

lemma take_ne_nil_of_ne_nil {l : List Char} (n : Nat) (hl : l ≠ []) (hn : 1 ≤ n) :
    l.take n ≠ [] := by
  cases l with
  | nil => exact absurd rfl hl
  | cons a t =>
    cases n with
    | zero => omega
    | succ m => simp [List.take_succ_cons]

lemma isPrefixOf_ne_nil {p s : List Char} (hp : p ≠ [])
    (hpre : p.isPrefixOf s = true) : s ≠ [] := by
  cases p with
  | nil => exact absurd rfl hp
  | cons a t =>
    cases s with
    | nil => simp [List.isPrefixOf] at hpre
    | cons b u => exact List.cons_ne_nil b u

lemma tryLen_ne_nil {s suffix : List Char} {lo : Nat} {g : List Char}
    (hsuf : suffix ≠ []) (hlo : 1 ≤ lo) :
    ∀ {n : Nat}, tryLen s suffix lo n = some g → g ≠ [] := by
  intro n
  induction n with
  | zero =>
    intro hres
    unfold tryLen at hres
    have : (lo == 0) = false := by
      rw [beq_eq_false_iff_ne]
      omega
    rw [this] at hres
    simp at hres
  | succ m ih =>
    intro hres
    unfold tryLen at hres
    by_cases hcond : (lo ≤ m + 1 && suffix.isPrefixOf (s.drop (m + 1))) = true
    · rw [if_pos hcond] at hres
      have hcond2 := hcond
      rw [Bool.and_eq_true] at hcond2
      have hpre : suffix.isPrefixOf (s.drop (m + 1)) = true := hcond2.2
      have hdrop : s.drop (m + 1) ≠ [] := isPrefixOf_ne_nil hsuf hpre
      have hs : s ≠ [] := by
        intro he
        rw [he] at hdrop
        exact hdrop (List.drop_nil)
      have := Option.some.inj hres
      rw [← this]
      exact take_ne_nil_of_ne_nil (m + 1) hs (by omega)
    · rw [if_neg hcond] at hres
      exact ih hres

lemma digitsThen_ne_nil {lo : Nat} {hi : Option Nat} {suffix s g : List Char}
    (hsuf : suffix ≠ []) (hlo : 1 ≤ lo)
    (hres : digitsThen lo hi suffix s = some g) : g ≠ [] := by
  unfold digitsThen at hres
  exact tryLen_ne_nil hsuf hlo hres

lemma tryDashDigits_ne_nil {lo : Nat} {hi : Option Nat} {suffix s g : List Char}
    (hsuf : suffix ≠ []) (hlo : 1 ≤ lo)
    (hres : tryDashDigits lo hi suffix s = some g) : g ≠ [] := by
  cases s with
  | nil => simp [tryDashDigits] at hres
  | cons c rest =>
    simp only [tryDashDigits] at hres
    by_cases hc : c = '-'
    · rw [if_pos hc] at hres
      exact digitsThen_ne_nil hsuf hlo hres
    · rw [if_neg hc] at hres
      simp at hres

lemma trySlashDigits_ne_nil {lo : Nat} {hi : Option Nat} {suffix s g : List Char}
    (hsuf : suffix ≠ []) (hlo : 1 ≤ lo)
    (hres : trySlashDigits lo hi suffix s = some g) : g ≠ [] := by
  cases s with
  | nil => simp [trySlashDigits] at hres
  | cons c rest =>
    simp only [trySlashDigits] at hres
    by_cases hc : c = '/'
    · rw [if_pos hc] at hres
      exact digitsThen_ne_nil hsuf hlo hres
    · rw [if_neg hc] at hres
      simp at hres

lemma slugBack_ne_nil {rest g : List Char} :
    ∀ {n : Nat}, slugBack rest n = some g → g ≠ [] := by
  intro n
  induction n with
  | zero =>
    intro hres
    simp [slugBack] at hres
  | succ m ih =>
    intro hres
    unfold slugBack at hres
    by_cases hcond : slugTailAt rest (m + 1) = true
    · rw [if_pos hcond] at hres
      have hrest : rest ≠ [] := by
        intro he
        rw [he] at hcond
        unfold slugTailAt at hcond
        simp at hcond
      have := Option.some.inj hres
      rw [← this]
      exact take_ne_nil_of_ne_nil (m + 1) hrest (by omega)
    · rw [if_neg hcond] at hres
      exact ih hres

lemma trySlug_ne_nil {s g : List Char} (hres : trySlug s = some g) : g ≠ [] := by
  cases s with
  | nil => simp [trySlug] at hres
  | cons c rest =>
    simp only [trySlug] at hres
    by_cases hc : c = '/'
    · rw [if_pos hc] at hres
      exact slugBack_ne_nil hres
    · rw [if_neg hc] at hres
      simp at hres

lemma searchP_some {f : List Char → Option (List Char)} :
    ∀ {s g : List Char}, searchP f s = some g → ∃ s2, f s2 = some g := by
  intro s
  induction s with
  | nil =>
    intro g hres
    exact ⟨[], hres⟩
  | cons c t ih =>
    intro g hres
    unfold searchP at hres
    cases hf : f (c :: t) with
    | some g2 =>
      rw [hf] at hres
      exact ⟨c :: t, hf.trans hres⟩
    | none =>
      rw [hf] at hres
      exact ih hres

lemma stripHtmSuffix_ne_nil {seg : List Char} (hseg : seg ≠ []) :
    stripHtmSuffix seg ≠ [] := by
  unfold stripHtmSuffix
  by_cases h5 : (['.', 'h', 't', 'm', 'l'].isSuffixOf seg && decide (5 < seg.length)) = true
  · rw [if_pos h5]
    have : 5 < seg.length := by
      have h5b := h5
      rw [Bool.and_eq_true] at h5b
      exact of_decide_eq_true h5b.2
    have hlen : (seg.take (seg.length - 5)).length = seg.length - 5 := by
      rw [List.length_take]
      omega
    intro he
    rw [he] at hlen
    simp at hlen
    omega
  · rw [if_neg h5]
    by_cases h4 : (['.', 'h', 't', 'm'].isSuffixOf seg && decide (4 < seg.length)) = true
    · rw [if_pos h4]
      have : 4 < seg.length := by
        have h4b := h4
        rw [Bool.and_eq_true] at h4b
        exact of_decide_eq_true h4b.2
      have hlen : (seg.take (seg.length - 4)).length = seg.length - 4 := by
        rw [List.length_take]
        omega
      intro he
      rw [he] at hlen
      simp at hlen
      omega
    · rw [if_neg h4]
      exact hseg

lemma lastSegGroup_ne_nil {s g : List Char} (hres : lastSegGroup s = some g) :
    g ≠ [] := by
  unfold lastSegGroup at hres
  cases hafter : afterLastSlash s with
  | none => rw [hafter] at hres; simp at hres
  | some seg =>
    rw [hafter] at hres
    dsimp only at hres
    by_cases hseg : seg = []
    · rw [if_pos hseg] at hres
      simp at hres
    · rw [if_neg hseg] at hres
      have := Option.some.inj hres
      rw [← this]
      exact stripHtmSuffix_ne_nil hseg

lemma stringMk_ne_empty {g : List Char} (hg : g ≠ []) : String.mk g ≠ "" := by
  intro he
  exact hg (congrArg String.data he)

lemma patternId_some_ne {u : String} {g : String}
    (hres : patternId u = some g) : g ≠ "" := by
  unfold patternId at hres
  dsimp only at hres
  cases h1 : searchP (tryDashDigits 15 (some 20) ['.', 'h', 't', 'm']) u.data with
  | some g1 =>
    rw [h1] at hres
    obtain ⟨s2, hs2⟩ := searchP_some h1
    rw [← Option.some.inj hres]
    exact stringMk_ne_empty (tryDashDigits_ne_nil (by simp) (by omega) hs2)
  | none =>
  rw [h1] at hres
  cases h2 : searchP (tryDashDigits 6 (some 10) ['.', 'h', 't', 'm']) u.data with
  | some g2 =>
    rw [h2] at hres
    obtain ⟨s2, hs2⟩ := searchP_some h2
    rw [← Option.some.inj hres]
    exact stringMk_ne_empty (tryDashDigits_ne_nil (by simp) (by omega) hs2)
  | none =>
  rw [h2] at hres
  cases h3 : searchP (trySlashDigits 6 (some 12) ['.', 'h', 't', 'm']) u.data with
  | some g3 =>
    rw [h3] at hres
    obtain ⟨s2, hs2⟩ := searchP_some h3
    rw [← Option.some.inj hres]
    exact stringMk_ne_empty (trySlashDigits_ne_nil (by simp) (by omega) hs2)
  | none =>
  rw [h3] at hres
  cases h4 : searchP (tryDashDigits 1 none ['.', 'h', 't', 'm']) u.data with
  | some g4 =>
    rw [h4] at hres
    obtain ⟨s2, hs2⟩ := searchP_some h4
    rw [← Option.some.inj hres]
    exact stringMk_ne_empty (tryDashDigits_ne_nil (by simp) (by omega) hs2)
  | none =>
  rw [h4] at hres
  cases h5 : searchP trySlug u.data with
  | some g5 =>
    rw [h5] at hres
    obtain ⟨s2, hs2⟩ := searchP_some h5
    rw [← Option.some.inj hres]
    exact stringMk_ne_empty (trySlug_ne_nil hs2)
  | none =>
  rw [h5] at hres
  cases h6 : lastSegGroup u.data with
  | some g6 =>
    rw [h6] at hres
    rw [← Option.some.inj hres]
    have hg6 : g6 ≠ [] := lastSegGroup_ne_nil h6
    exact stringMk_ne_empty (take_ne_nil_of_ne_nil 50 hg6 (by omega))
  | none =>
    rw [h6] at hres
    simp at hres

/-- C2 (amended): article-id derivation is a pure function of the URL *and
the process's string-hash function*.  Whenever one of the URL patterns or the
last-path-segment rule matches (`patternId` is `some`), the derived id does
not depend on the hash function at all, so it is identical across runs.
Only URLs that fall through every pattern reach the `str(abs(hash(url)))`
fallback, whose value depends on the per-process hash salt (see the
counterexample). -/
theorem c2_pattern_id_hash_independent (h1 h2 : String → Int) (u : String)
    (hp : (patternId u).isSome = true) :
    deriveArticleId h1 u = deriveArticleId h2 u := by
  obtain ⟨g, hg⟩ := Option.isSome_iff_exists.mp hp
  have hne : g ≠ "" := patternId_some_ne hg
  unfold deriveArticleId scanner_extract_article_id
  rw [hg]
  dsimp only
  rw [if_neg hne, if_neg hne]

theorem c2_pattern_id_witness :
    deriveArticleId (fun _ => 0) "http://x.vn/a-1234567.html"
      = deriveArticleId (fun _ => 1) "http://x.vn/a-1234567.html" :=
  c2_pattern_id_hash_independent (fun _ => 0) (fun _ => 1)
    "http://x.vn/a-1234567.html" (by decide)

/-- C2 counterexample: for a URL with no extractable pattern id and an empty
last path segment (a trailing slash), the id is `str(abs(hash(url)))`.
Python's string hash is salted per process, so two runs are two different
hash functions; modelling one run by the constant hash 0 and another by the
constant hash 1, the same URL derives two different ids — id derivation is
not deterministic across runs for such URLs. -/
theorem c2_hash_fallback_run_dependent :
    deriveArticleId (fun _ => 0) "http://a.com/" = "0"
    ∧ deriveArticleId (fun _ => 1) "http://a.com/" = "1" := by
  constructor <;> rfl
